import Mathlib

/-!
Shallow embedding of the job-log streaming core of the `pyghost` client
(`pyghost/api_client.py` : `JobsApiClient.get_logs_async`,
`JobsApiClient._get_websocket_token`, and the text sanitizers of
`pyghost/utils.py`), together with theorems settling the specification
claims about it.

Python 3 values that flow through the pipeline are either `str` or
`bytes`; the distinction is load-bearing (`bytes.decode` exists,
`str.decode` does not), so we model it explicitly.
-/

namespace Pyghost

/-- A Python value delivered through the log pipeline: either a `str`
(modelled as a Lean `String`) or a `bytes` object (a list of byte
values). -/
inductive PyData where
  | pstr (s : String)
  | pbytes (b : List Nat)
deriving DecidableEq, Repr

/-- The Python exceptions that the embedded code can raise. -/
inductive PyErr where
  | apiClientException (msg : String)
  | keyError
  | attributeError
  | unicodeDecodeError
  | binasciiError
deriving DecidableEq, Repr

/-! ## `pyghost/utils.py` : the text sanitizers -/

/-- The exact panel-divider sequence replaced by `trim_xml_html_tags`:
`data_str.replace('</div><div class="panel panel-default">', "\n")`. -/
def panelDivider : List Char := "</div><div class=\"panel panel-default\">".data

/-- `str.replace(panelDivider, "\n")`, fuel-bounded: replace every
non-overlapping occurrence of the divider, left to right, by a
newline. Every recursive call strictly shortens the list, so fuel
equal to the input length (as used by `replacePanel`) always
suffices. -/
def replacePanelF : Nat → List Char → List Char
  | 0, l => l
  | _ + 1, [] => []
  | fuel + 1, c :: rest =>
    if panelDivider.isPrefixOf (c :: rest) then
      '\n' :: replacePanelF fuel ((c :: rest).drop panelDivider.length)
    else
      c :: replacePanelF fuel rest

/-- `str.replace(panelDivider, "\n")`. -/
def replacePanel (l : List Char) : List Char := replacePanelF l.length l

/-- Scan the characters after an opening `<` for the first `>` at
distance ≥ 2, failing on an intervening `<` (the `[^<]+?>` part of the
regex `<[^<]+?>` after its first mandatory character). Returns the
remainder after the `>`. -/
def findGt : List Char → Option (List Char)
  | [] => none
  | c :: rest =>
    if c = '>' then some rest
    else if c = '<' then none
    else findGt rest

/-- Try to match the regex `<[^<]+?>` (non-greedy) at a position whose
`<` has just been consumed; `l` is the rest of the input. On success,
return the input remaining after the matched tag. -/
def matchTag : List Char → Option (List Char)
  | [] => none
  | c :: rest => if c = '<' then none else findGt rest

/-- `re.sub('<[^<]+?>', '', s)`, fuel-bounded: remove every leftmost,
non-overlapping match of the tag regex. Every recursive call strictly
shortens the list (a matched tag spans at least three characters), so
fuel equal to the input length always suffices. -/
def stripTagsF : Nat → List Char → List Char
  | 0, l => l
  | _ + 1, [] => []
  | fuel + 1, c :: rest =>
    if c = '<' then
      match matchTag rest with
      | some rem => stripTagsF fuel rem
      | none => c :: stripTagsF fuel rest
    else
      c :: stripTagsF fuel rest

/-- `re.sub('<[^<]+?>', '', s)`. -/
def stripTags (l : List Char) : List Char := stripTagsF l.length l

/-- `pyghost.utils.trim_xml_html_tags`: replace the panel divider by a
newline, then strip all `<[^<]+?>` matches. -/
def trim_xml_html_tags (s : String) : String :=
  String.mk (stripTags (replacePanel s.data))

/-- Membership in the ANSI parameter-byte class (0x30–0x3F). -/
def isAnsiParam (c : Char) : Bool := decide (0x30 ≤ c.toNat ∧ c.toNat ≤ 0x3F)

/-- Membership in the ANSI intermediate-byte class (0x20–0x2F). -/
def isAnsiInter (c : Char) : Bool := decide (0x20 ≤ c.toNat ∧ c.toNat ≤ 0x2F)

/-- Membership in the ANSI final-byte class (0x40–0x7E). -/
def isAnsiFinal (c : Char) : Bool := decide (0x40 ≤ c.toNat ∧ c.toNat ≤ 0x7E)

/-- The ANSI-escape regex of `trim_ansi_tags` (ESC, an opening square
bracket, zero or more parameter bytes, zero or more intermediate bytes,
one final byte), applied by `re.sub` with the empty replacement,
fuel-bounded. The three character classes are pairwise disjoint, so
the greedy scan is deterministic: after ESC and the bracket, consume
the maximal run of parameter bytes, then of intermediate bytes, then
one final byte. Every recursive call strictly shortens the list, so
fuel equal to the input length always suffices. -/
def removeAnsiF : Nat → List Char → List Char
  | 0, l => l
  | _ + 1, [] => []
  | fuel + 1, c :: rest =>
    if c = '\x1B' then
      match rest with
      | '[' :: r2 =>
        match (r2.dropWhile isAnsiParam).dropWhile isAnsiInter with
        | f :: r5 =>
          if isAnsiFinal f then removeAnsiF fuel r5
          else c :: removeAnsiF fuel ('[' :: r2)
        | [] => c :: removeAnsiF fuel ('[' :: r2)
      | r => c :: removeAnsiF fuel r
    else
      c :: removeAnsiF fuel rest

/-- ANSI-escape removal, as performed by `trim_ansi_tags`. -/
def removeAnsi (l : List Char) : List Char := removeAnsiF l.length l

/-! ## Strict UTF-8 (Python 3 `bytes.decode('utf-8')` /
`str.encode('utf-8')`) -/

/-- UTF-8 encoding of one code point. -/
def utf8EncodeChar (n : Nat) : List Nat :=
  if n < 0x80 then [n]
  else if n < 0x800 then [0xC0 + n / 64, 0x80 + n % 64]
  else if n < 0x10000 then
    [0xE0 + n / 4096, 0x80 + n / 64 % 64, 0x80 + n % 64]
  else
    [0xF0 + n / 262144, 0x80 + n / 4096 % 64, 0x80 + n / 64 % 64,
     0x80 + n % 64]

/-- `str.encode('utf-8')` on the code points of a string. -/
def utf8Encode (s : String) : List Nat :=
  s.data.flatMap (fun c => utf8EncodeChar c.toNat)

/-- A UTF-8 continuation byte (0x80–0xBF). -/
def isCont (b : Nat) : Bool := 0x80 ≤ b ∧ b ≤ 0xBF

/-- Strict UTF-8 decoding (rejecting overlong forms and surrogates, as
CPython does). Returns `none` on malformed input. -/
def utf8DecodeChars : List Nat → Option (List Char)
  | [] => some []
  | b :: rest =>
    if b < 0x80 then
      (utf8DecodeChars rest).map (fun tl => Char.ofNat b :: tl)
    else if b < 0xC2 then none
    else if b ≤ 0xDF then
      match rest with
      | b2 :: rest2 =>
        if isCont b2 then
          (utf8DecodeChars rest2).map
            (fun tl => Char.ofNat ((b - 0xC0) * 64 + (b2 - 0x80)) :: tl)
        else none
      | [] => none
    else if b ≤ 0xEF then
      match rest with
      | b2 :: b3 :: rest3 =>
        if isCont b2 ∧ isCont b3 ∧ (b = 0xE0 → 0xA0 ≤ b2) ∧
            (b = 0xED → b2 ≤ 0x9F) then
          (utf8DecodeChars rest3).map
            (fun tl =>
              Char.ofNat ((b - 0xE0) * 4096 + (b2 - 0x80) * 64 + (b3 - 0x80))
                :: tl)
        else none
      | _ => none
    else if b ≤ 0xF4 then
      match rest with
      | b2 :: b3 :: b4 :: rest4 =>
        if isCont b2 ∧ isCont b3 ∧ isCont b4 ∧ (b = 0xF0 → 0x90 ≤ b2) ∧
            (b = 0xF4 → b2 ≤ 0x8F) then
          (utf8DecodeChars rest4).map
            (fun tl =>
              Char.ofNat ((b - 0xF0) * 262144 + (b2 - 0x80) * 4096 +
                (b3 - 0x80) * 64 + (b4 - 0x80)) :: tl)
        else none
      | _ => none
    else none

/-! ## Base64 (`base64.b64encode` / `base64.b64decode`) -/

/-- The standard base64 alphabet, as a sextet-to-character map. -/
def b64EncChar (n : Nat) : Char :=
  if n < 26 then Char.ofNat (65 + n)
  else if n < 52 then Char.ofNat (97 + (n - 26))
  else if n < 62 then Char.ofNat (48 + (n - 52))
  else if n = 62 then '+'
  else '/'

/-- Inverse of the base64 alphabet. -/
def b64DecChar (c : Char) : Option Nat :=
  let n := c.toNat
  if 65 ≤ n ∧ n ≤ 90 then some (n - 65)
  else if 97 ≤ n ∧ n ≤ 122 then some (n - 97 + 26)
  else if 48 ≤ n ∧ n ≤ 57 then some (n - 48 + 52)
  else if n = 43 then some 62
  else if n = 47 then some 63
  else none

/-- `base64.b64encode` on a byte list. -/
def b64EncodeBytes : List Nat → List Char
  | a :: b :: c :: rest =>
    b64EncChar (a / 4) :: b64EncChar ((a % 4) * 16 + b / 16) ::
      b64EncChar ((b % 16) * 4 + c / 64) :: b64EncChar (c % 64) ::
      b64EncodeBytes rest
  | [a, b] =>
    [b64EncChar (a / 4), b64EncChar ((a % 4) * 16 + b / 16),
     b64EncChar ((b % 16) * 4), '=']
  | [a] =>
    [b64EncChar (a / 4), b64EncChar ((a % 4) * 16), '=', '=']
  | [] => []

/-- `base64.b64decode` on well-formed base64 text: decode four
characters to three bytes, with `=`-padding only in a final group.
Malformed input raises `binascii.Error`. -/
def b64DecodeBytes : List Char → Except PyErr (List Nat)
  | [] => Except.ok []
  | c1 :: c2 :: c3 :: c4 :: rest =>
    match b64DecChar c1, b64DecChar c2 with
    | some s1, some s2 =>
      if c3 = '=' then
        if c4 = '=' ∧ rest = [] then Except.ok [s1 * 4 + s2 / 16]
        else Except.error PyErr.binasciiError
      else
        match b64DecChar c3 with
        | some s3 =>
          if c4 = '=' then
            if rest = [] then
              Except.ok [s1 * 4 + s2 / 16, (s2 % 16) * 16 + s3 / 4]
            else Except.error PyErr.binasciiError
          else
            match b64DecChar c4, b64DecodeBytes rest with
            | some s4, Except.ok bs =>
              Except.ok ((s1 * 4 + s2 / 16) :: ((s2 % 16) * 16 + s3 / 4) ::
                ((s3 % 4) * 64 + s4) :: bs)
            | _, _ => Except.error PyErr.binasciiError
        | none => Except.error PyErr.binasciiError
    | _, _ => Except.error PyErr.binasciiError
  | _ => Except.error PyErr.binasciiError

/-- `pyghost.utils.trim_ansi_tags`: calls `data_str.decode('utf-8')`,
which on Python 3 succeeds only on `bytes` — a `str` argument raises
`AttributeError` — then strips ANSI escapes. -/
def trim_ansi_tags : PyData → Except PyErr String
  | PyData.pstr _ => Except.error PyErr.attributeError
  | PyData.pbytes bs =>
    match utf8DecodeChars bs with
    | none => Except.error PyErr.unicodeDecodeError
    | some cs => Except.ok (String.mk (removeAnsi cs))

/-! ## The inbound channel message and the per-message handler
(`get_logs_async`'s inner `callback`) -/

/-- An inbound channel message (`args`): a dict that may carry the
keys `error`, `raw` (a base64 string) and `html`. `none` models an
absent key. -/
structure Msg where
  error : Option String
  raw : Option String
  html : Option String
deriving DecidableEq, Repr

/-- What the message handler does with one message: invoke
`exception_handler` or invoke `success_handler`. -/
inductive CbResult where
  | onError (e : PyErr)
  | onMessage (d : PyData)
deriving DecidableEq, Repr

/-- `base64.b64decode` applied to a `str`. -/
def b64decodePy (r : String) : Except PyErr (List Nat) :=
  b64DecodeBytes r.data

/-- The message handler `callback(args)` defined inside
`get_logs_async`. Its whole body is wrapped in
`try: ... except Exception as e: exception_handler(e)`. -/
def callback (no_color : Bool) (args : Msg) : CbResult :=
  match args.error with
  | some e => CbResult.onError (PyErr.apiClientException e)
  | none =>
    let step1 : Except PyErr PyData :=
      match args.raw with
      | none =>
        match args.html with
        | some h => Except.ok (PyData.pstr (trim_xml_html_tags h ++ "\n"))
        | none => Except.error PyErr.keyError
      | some r =>
        match b64decodePy r with
        | Except.ok bs => Except.ok (PyData.pbytes bs)
        | Except.error e => Except.error e
    let step2 : Except PyErr PyData :=
      match step1 with
      | Except.error e => Except.error e
      | Except.ok d =>
        if no_color then
          match trim_ansi_tags d with
          | Except.ok s => Except.ok (PyData.pstr s)
          | Except.error e => Except.error e
        else Except.ok d
    match step2 with
    | Except.ok d => CbResult.onMessage d
    | Except.error e => CbResult.onError e

/-! ## `_get_websocket_token` -/

/-- The Python value bound to `auth_token`: a `str` on success of the
token request, or the literal `False` when the request raised. -/
inductive TokenVal where
  | tstr (s : String)
  | pyFalse
deriving DecidableEq, Repr

/-- Python truthiness of the token value (`False` and `''` are falsy). -/
def tokenTruthy : TokenVal → Bool
  | TokenVal.tstr s => !s.isEmpty
  | TokenVal.pyFalse => false

/-- `JobsApiClient._get_websocket_token`: on a successful request,
`.get('token', '')` (so a missing key yields `''`); on any exception,
the falsy placeholder `False`. -/
def get_websocket_token (req : Except PyErr (Option String)) : TokenVal :=
  match req with
  | Except.ok t => TokenVal.tstr (t.getD "")
  | Except.error _ => TokenVal.pyFalse

/-! ## The streaming controller `get_logs_async` -/

/-- The environment a `get_logs_async` run interacts with:
`fetch k` is the outcome of the `k`-th `self.retrieve(job_id)` call
(the job record reduced to its `status` string, or the exception the
REST layer raised); `wsCheck` is the outcome of
`requests.get(host + '/socket.io/')` (status code or transport
exception); `tokenReq` is the outcome of the websocket-token request;
`waves w` is the list of messages the channel dispatches during the
`w`-th `socketIO.wait(seconds=3)` window. -/
structure Env where
  fetch : Nat → Except PyErr String
  wsCheck : Except PyErr Nat
  tokenReq : Except PyErr (Option String)
  waves : Nat → List Msg

/-- Observable events of a run, in order. -/
inductive Event where
  | sleepSecs (n : Nat)
  | fetchJob
  | wsProbe
  | sessionOpen
  | tokenFetch
  | emitSub (logId : String) (lastPos : Nat) (rawMode : Bool) (authToken : TokenVal)
  | waitWindow (n : Nat)
  | errorCb (e : PyErr)
  | msgCb (d : PyData)
  | sessionClose
deriving DecidableEq, Repr

/-- Outcome of a (fuel-bounded) loop: normal exit, an uncaught Python
exception, or fuel exhaustion (the loop was still running). -/
inductive LoopRes (α : Type) where
  | ok (a : α)
  | exn (e : PyErr)
  | spin
deriving DecidableEq, Repr

/-- Outcome of a whole `get_logs_async` call: `ret v` models a normal
return with Python value `v` (`none` is `None`), `exn` an uncaught
exception reaching the caller, `spin` a run still looping after `fuel`
iterations. -/
inductive RunRes where
  | ret (v : Option PyData)
  | exn (e : PyErr)
  | spin
deriving DecidableEq, Repr

/-- The events caused by delivering one wait-window's messages to the
registered handler, in arrival order. -/
def processWave (no_color : Bool) : List Msg → List Event
  | [] => []
  | m :: rest =>
    (match callback no_color m with
     | CbResult.onError e => Event.errorCb e
     | CbResult.onMessage d => Event.msgCb d) :: processWave no_color rest

/-- The wait-for-start loop:
`while wait_for_start and job['status'] == 'init': sleep(3); job = retrieve(job_id)`.
`s` is the current status, `k` the index of the next `retrieve` call.
Returns the status and next fetch index on exit. -/
def startLoop (env : Env) (wfs : Bool) :
    Nat → String → Nat → List Event × LoopRes (String × Nat)
  | fuel, s, k =>
    if wfs ∧ s = "init" then
      match fuel with
      | 0 => ([], LoopRes.spin)
      | fuel' + 1 =>
        match env.fetch k with
        | Except.error e => ([Event.sleepSecs 3, Event.fetchJob], LoopRes.exn e)
        | Except.ok s2 =>
          let r := startLoop env wfs fuel' s2 (k + 1)
          (Event.sleepSecs 3 :: Event.fetchJob :: r.1, r.2)
    else ([], LoopRes.ok (s, k))

/-- The streaming loop:
`while job['status'] == 'started': socketIO.wait(seconds=3); job = retrieve(job_id)`.
`w` is the index of the next wait window. Returns the index of the
next (drain) wait window on exit. -/
def streamLoop (env : Env) (no_color : Bool) :
    Nat → String → Nat → Nat → List Event × LoopRes Nat
  | fuel, s, k, w =>
    if s = "started" then
      match fuel with
      | 0 => ([], LoopRes.spin)
      | fuel' + 1 =>
        let wave := Event.waitWindow 3 :: processWave no_color (env.waves w)
        match env.fetch k with
        | Except.error e => (wave ++ [Event.fetchJob], LoopRes.exn e)
        | Except.ok s2 =>
          let r := streamLoop env no_color fuel' s2 (k + 1) (w + 1)
          (wave ++ Event.fetchJob :: r.1, r.2)
    else ([], LoopRes.ok w)

/-- `JobsApiClient.get_logs_async(job_id, success_handler,
exception_handler, wait_for_start, no_color)`, as a function of the
environment. Mirrors the source line by line: initial retrieve,
wait-for-start loop, refusal branch, websocket probe, `with SocketIO`
session (scoped: closed on normal exit and when an exception escapes
the body), token fetch, subscription emit, streaming loop, one final
drain wait, implicit `return None`. -/
def get_logs_async (env : Env) (job_id : String) (wait_for_start no_color : Bool)
    (fuel : Nat) : List Event × RunRes :=
  match env.fetch 0 with
  | Except.error e => ([Event.fetchJob], RunRes.exn e)
  | Except.ok s0 =>
    let r1 := startLoop env wait_for_start fuel s0 1
    let pre := Event.fetchJob :: r1.1
    match r1.2 with
    | LoopRes.spin => (pre, RunRes.spin)
    | LoopRes.exn e => (pre, RunRes.exn e)
    | LoopRes.ok (s, k) =>
      if s = "init" then
        (pre ++ [Event.errorCb (PyErr.apiClientException "The job is not started.")],
         RunRes.ret none)
      else
        match env.wsCheck with
        | Except.error e => (pre ++ [Event.wsProbe], RunRes.exn e)
        | Except.ok code =>
          if code ≠ 200 then
            (pre ++ [Event.wsProbe,
              Event.errorCb (PyErr.apiClientException "Websocket server is unavailable.")],
             RunRes.ret none)
          else
            let tok := get_websocket_token env.tokenReq
            let hs := [Event.wsProbe, Event.sessionOpen, Event.tokenFetch,
              Event.emitSub job_id 0 true tok]
            let r2 := streamLoop env no_color fuel s k 0
            match r2.2 with
            | LoopRes.spin => (pre ++ hs ++ r2.1, RunRes.spin)
            | LoopRes.exn e =>
              (pre ++ hs ++ r2.1 ++ [Event.sessionClose], RunRes.exn e)
            | LoopRes.ok w =>
              (pre ++ hs ++ r2.1 ++ Event.waitWindow 3 ::
                processWave no_color (env.waves w) ++ [Event.sessionClose],
               RunRes.ret none)

/-! ## Auxiliary predicates and event bookkeeping -/

/-- Whether the panel-divider sequence occurs as a substring. -/
def occursPanel : List Char → Bool
  | [] => false
  | c :: rest => panelDivider.isPrefixOf (c :: rest) || occursPanel rest

/-- Whether some position of the input matches the tag regex. -/
def hasTag : List Char → Bool
  | [] => false
  | c :: rest => (c = '<' && (matchTag rest).isSome) || hasTag rest

/-- Number of `sessionOpen` events. -/
def countOpens : List Event → Nat
  | [] => 0
  | Event.sessionOpen :: r => countOpens r + 1
  | _ :: r => countOpens r

/-- Number of `sessionClose` events. -/
def countCloses : List Event → Nat
  | [] => 0
  | Event.sessionClose :: r => countCloses r + 1
  | _ :: r => countCloses r

/-- Number of `waitWindow` events. -/
def countWaits : List Event → Nat
  | [] => 0
  | Event.waitWindow _ :: r => countWaits r + 1
  | _ :: r => countWaits r

/-- The events of `n` iterations of the wait-for-start loop. -/
def startEvents : Nat → List Event
  | 0 => []
  | n + 1 => Event.sleepSecs 3 :: Event.fetchJob :: startEvents n

/-- The events of `m` iterations of the streaming loop, the first wait
window having index `w`. -/
def streamEvents (env : Env) (nc : Bool) : Nat → Nat → List Event
  | 0, _ => []
  | m + 1, w =>
    Event.waitWindow 3 :: processWave nc (env.waves w) ++
      Event.fetchJob :: streamEvents env nc m (w + 1)

/-! ## Base64 round trip -/

theorem b64DecChar_encChar {n : Nat} (h : n < 64) :
    b64DecChar (b64EncChar n) = some n := by
  revert h; revert n; decide

theorem b64EncChar_ne_pad {n : Nat} (h : n < 64) : b64EncChar n ≠ '=' := by
  revert h; revert n; decide

theorem b64_roundtrip :
    ∀ bs : List Nat, (∀ x ∈ bs, x < 256) →
      b64DecodeBytes (b64EncodeBytes bs) = Except.ok bs := by
  intro bs
  induction bs using b64EncodeBytes.induct with
  | case1 a b c rest ih =>
    intro hb
    have ha : a < 256 := hb a (by simp)
    have hb' : b < 256 := hb b (by simp)
    have hc : c < 256 := hb c (by simp)
    have ih' := ih (fun x hx => hb x (by simp [hx]))
    simp only [b64EncodeBytes, b64DecodeBytes,
      @b64DecChar_encChar (a / 4) (by omega),
      @b64DecChar_encChar (a % 4 * 16 + b / 16) (by omega),
      @b64DecChar_encChar (b % 16 * 4 + c / 64) (by omega),
      @b64DecChar_encChar (c % 64) (by omega),
      if_neg (@b64EncChar_ne_pad (b % 16 * 4 + c / 64) (by omega)),
      if_neg (@b64EncChar_ne_pad (c % 64) (by omega)), ih']
    simp only [Except.ok.injEq, List.cons.injEq, and_true, true_and]
    omega
  | case2 a b =>
    intro hb
    have ha : a < 256 := hb a (by simp)
    have hb' : b < 256 := hb b (by simp)
    simp only [b64EncodeBytes, b64DecodeBytes,
      @b64DecChar_encChar (a / 4) (by omega),
      @b64DecChar_encChar (a % 4 * 16 + b / 16) (by omega),
      @b64DecChar_encChar (b % 16 * 4) (by omega),
      if_neg (@b64EncChar_ne_pad (b % 16 * 4) (by omega))]
    simp
    all_goals omega
  | case3 a =>
    intro hb
    have ha : a < 256 := hb a (by simp)
    simp [b64EncodeBytes, b64DecodeBytes,
      @b64DecChar_encChar (a / 4) (by omega),
      @b64DecChar_encChar (a % 4 * 16) (by omega)]
    all_goals omega
  | case4 =>
    intro _
    simp [b64EncodeBytes, b64DecodeBytes]

/-! ## UTF-8 encoded bytes are bytes -/

theorem char_toNat_lt (c : Char) : c.toNat < 1114112 := by
  have h := c.valid
  rcases h with h | h
  · exact Nat.lt_trans h (by norm_num)
  · exact h.2

theorem utf8EncodeChar_lt {n : Nat} (h : n < 1114112) :
    ∀ x ∈ utf8EncodeChar n, x < 256 := by
  intro x hx
  unfold utf8EncodeChar at hx
  split at hx
  · simp at hx; omega
  · split at hx
    · simp at hx
      rcases hx with h1 | h1 <;> omega
    · split at hx
      · simp at hx
        rcases hx with h1 | h1 | h1 <;> omega
      · simp at hx
        rcases hx with h1 | h1 | h1 | h1 <;> omega

theorem utf8Encode_lt (t : String) : ∀ x ∈ utf8Encode t, x < 256 := by
  intro x hx
  unfold utf8Encode at hx
  simp only [List.mem_flatMap] at hx
  rcases hx with ⟨c, _, hc⟩
  exact utf8EncodeChar_lt (char_toNat_lt c) x hc

/-! ## Identity of the sanitizers on clean input -/

theorem replacePanelF_id :
    ∀ (fuel : Nat) (l : List Char), occursPanel l = false →
      replacePanelF fuel l = l := by
  intro fuel
  induction fuel with
  | zero => intro l _; rfl
  | succ n ih =>
    intro l hocc
    cases l with
    | nil => rfl
    | cons c rest =>
      simp only [occursPanel, Bool.or_eq_false_iff] at hocc
      simp [replacePanelF, hocc.1, ih rest hocc.2]

theorem replacePanel_id (l : List Char) (h : occursPanel l = false) :
    replacePanel l = l :=
  replacePanelF_id l.length l h

theorem stripTagsF_id :
    ∀ (fuel : Nat) (l : List Char), hasTag l = false →
      stripTagsF fuel l = l := by
  intro fuel
  induction fuel with
  | zero => intro l _; rfl
  | succ n ih =>
    intro l htag
    cases l with
    | nil => rfl
    | cons c rest =>
      simp only [hasTag, Bool.or_eq_false_iff, Bool.and_eq_false_iff] at htag
      by_cases hc : c = '<'
      · have hmt : matchTag rest = none := by
          rcases htag.1 with h | h
          · exact absurd hc (by simpa using h)
          · cases hm : matchTag rest with
            | none => rfl
            | some r => rw [hm] at h; simp at h
        simp [stripTagsF, hc, hmt, ih rest htag.2]
      · simp [stripTagsF, hc, ih rest htag.2]

theorem stripTags_id (l : List Char) (h : hasTag l = false) :
    stripTags l = l :=
  stripTagsF_id l.length l h

/-! ## Claim theorems about the message pipeline -/

/-- C1 (counterexample): for the message `{raw: "aGVsbG8="}` (the
base64 encoding of "hello") with `no_color = false`, the handler
invokes `success_handler` with the *bytes* object `b'hello'`
(`base64.b64decode` returns `bytes` on Python 3), which is not the
`str` `"hello"` — refuting the claim that the delivered value equals
the string `"hello"`. -/
theorem raw_hello_delivers_bytes_not_str :
    callback false ⟨none, some "aGVsbG8=", none⟩ =
      CbResult.onMessage (PyData.pbytes [104, 101, 108, 108, 111]) ∧
    PyData.pbytes [104, 101, 108, 108, 111] ≠ PyData.pstr "hello" := by
  exact ⟨by decide, by decide⟩

/-- C1 (amended): for every inbound message `{raw: b}` where `b` is
the base64 encoding of the UTF-8 bytes of a text `t`, and
`no_color = false`, the handler invokes `success_handler` with exactly
the decoded *bytes* of `t` (not a `str`); in particular for
`{raw: base64("hello")}` the delivered value is `b"hello"`, i.e. the
byte sequence `[104, 101, 108, 108, 111]`. -/
theorem raw_path_delivers_decoded_bytes :
    (∀ t : String,
      callback false ⟨none, some (String.mk (b64EncodeBytes (utf8Encode t))), none⟩ =
        CbResult.onMessage (PyData.pbytes (utf8Encode t))) ∧
    callback false ⟨none, some "aGVsbG8=", none⟩ =
      CbResult.onMessage (PyData.pbytes (utf8Encode "hello")) := by
  constructor
  · intro t
    have h := b64_roundtrip (utf8Encode t) (utf8Encode_lt t)
    simp [callback, b64decodePy, h]
  · decide

/-- C2 (counterexample): for the message whose `html` field is
`<h1>hi</h1><div class="panel panel-default">bye` (and no `raw`
field), with `no_color = false`, `success_handler` receives
`"hibye\n"`, not `"hi\nbye\n"`: the input does not contain the exact
divider sequence `</div><div class="panel panel-default">` (there is
no `</div>` before the panel `<div>`), so no newline is inserted and
all three tags are simply stripped. -/
theorem html_panel_example_yields_hibye :
    callback false
      ⟨none, none, some "<h1>hi</h1><div class=\"panel panel-default\">bye"⟩ =
      CbResult.onMessage (PyData.pstr "hibye\n") ∧
    ("hibye\n" : String) ≠ "hi\nbye\n" := by
  exact ⟨by decide, by decide⟩

/-- C2 (amended): for every inbound message without a `raw` field,
with `no_color = false`, the handler treats the `html` field as
markup, replaces each occurrence of the exact panel-divider sequence
`</div><div class="panel panel-default">` by a newline, strips all
remaining tags, appends one trailing newline and delivers the result
to `success_handler`; for the particular message whose html is
`<h1>hi</h1><div class="panel panel-default">bye` — which does not
contain the divider sequence — the delivered value is `"hibye\n"`
(when the divider does occur, as in
`<div><h1>x</h1></div><div class="panel panel-default">y`, it becomes
a newline). -/
theorem html_path_delivery :
    (∀ h : String,
      callback false ⟨none, none, some h⟩ =
        CbResult.onMessage (PyData.pstr (trim_xml_html_tags h ++ "\n"))) ∧
    callback false
      ⟨none, none, some "<h1>hi</h1><div class=\"panel panel-default\">bye"⟩ =
      CbResult.onMessage (PyData.pstr "hibye\n") ∧
    trim_xml_html_tags
      "<div><h1>hello world!</h1></div><div class=\"panel panel-default\">:)" =
      "hello world!\n:)" := by
  refine ⟨fun h => rfl, by decide, by decide⟩

/-- C3 (code bug): with `no_color = true` the code calls
`trim_ansi_tags` on both paths, but on the html compatibility path the
argument is a `str`, and `str` has no `decode` method on Python 3, so
the pipeline raises `AttributeError` (caught and sent to
`exception_handler`) instead of delivering ANSI-stripped text — even
though the repository's own doctests assert `trim_ansi_tags` works on
`str` input. On the raw path (bytes) the stripping works: the message
whose decoded content is `"\x1B[32mSTATE: Started\x1B[0m"` yields
exactly `"STATE: Started"`. -/
theorem ansi_strip_html_path_raises :
    callback true ⟨none, none, some "<h1>hi</h1>"⟩ =
      CbResult.onError PyErr.attributeError ∧
    callback true
      ⟨none,
       some (String.mk (b64EncodeBytes (utf8Encode "\x1B[32mSTATE: Started\x1B[0m"))),
       none⟩ =
      CbResult.onMessage (PyData.pstr "STATE: Started") := by
  exact ⟨by decide, by decide⟩

/-- C9 (code bug): `trim_xml_html_tags` is the identity on every input
containing no occurrence of the panel-divider sequence and no match of
the tag regex; but `trim_ansi_tags` applied to clean *text* (a `str`,
as in the repository's own doctests, e.g. `'hello world'`) raises
`AttributeError` on Python 3 instead of returning it unchanged,
because `str` has no `decode` method. -/
theorem sanitizers_identity_on_clean :
    (∀ s : String, occursPanel s.data = false → hasTag s.data = false →
      trim_xml_html_tags s = s) ∧
    trim_ansi_tags (PyData.pstr "hello world") =
      Except.error PyErr.attributeError := by
  constructor
  · intro s hocc htag
    unfold trim_xml_html_tags
    rw [replacePanel_id s.data hocc, stripTags_id s.data htag]
  · rfl

/-- Witness for C9: the doctest input `'hello world'` is clean, and
`trim_xml_html_tags` leaves it unchanged. -/
theorem sanitizers_identity_on_clean_witness :
    trim_xml_html_tags "hello world" = "hello world" :=
  sanitizers_identity_on_clean.1 "hello world" (by decide) (by decide)

/-! ## Event counting lemmas -/

theorem countOpens_append (l1 l2 : List Event) :
    countOpens (l1 ++ l2) = countOpens l1 + countOpens l2 := by
  induction l1 with
  | nil => simp [countOpens]
  | cons e r ih => cases e <;> simp [countOpens, ih] <;> omega

theorem countCloses_append (l1 l2 : List Event) :
    countCloses (l1 ++ l2) = countCloses l1 + countCloses l2 := by
  induction l1 with
  | nil => simp [countCloses]
  | cons e r ih => cases e <;> simp [countCloses, ih] <;> omega

theorem countWaits_append (l1 l2 : List Event) :
    countWaits (l1 ++ l2) = countWaits l1 + countWaits l2 := by
  induction l1 with
  | nil => simp [countWaits]
  | cons e r ih => cases e <;> simp [countWaits, ih] <;> omega

theorem processWave_counts (nc : Bool) (msgs : List Msg) :
    countOpens (processWave nc msgs) = 0 ∧
    countCloses (processWave nc msgs) = 0 ∧
    countWaits (processWave nc msgs) = 0 := by
  induction msgs with
  | nil => exact ⟨rfl, rfl, rfl⟩
  | cons m rest ih =>
    simp only [processWave]
    cases callback nc m <;>
      simp [countOpens, countCloses, countWaits, ih.1, ih.2.1, ih.2.2]

theorem startEvents_counts (n : Nat) :
    countOpens (startEvents n) = 0 ∧
    countCloses (startEvents n) = 0 ∧
    countWaits (startEvents n) = 0 := by
  induction n with
  | zero => exact ⟨rfl, rfl, rfl⟩
  | succ m ih =>
    simp [startEvents, countOpens, countCloses, countWaits, ih.1, ih.2.1, ih.2.2]

theorem streamEvents_counts (env : Env) (nc : Bool) :
    ∀ m w, countOpens (streamEvents env nc m w) = 0 ∧
      countCloses (streamEvents env nc m w) = 0 ∧
      countWaits (streamEvents env nc m w) = m := by
  intro m
  induction m with
  | zero => intro w; exact ⟨rfl, rfl, rfl⟩
  | succ n ih =>
    intro w
    have hw := processWave_counts nc (env.waves w)
    have hi := ih (w + 1)
    simp [streamEvents, countOpens, countCloses, countWaits,
      countOpens_append, countCloses_append, countWaits_append,
      hw.1, hw.2.1, hw.2.2, hi.1, hi.2.1, hi.2.2]

/-! ## Loop lemmas -/

theorem startLoop_no_session (env : Env) (wfs : Bool) :
    ∀ (fuel : Nat) (s : String) (k : Nat),
      countOpens (startLoop env wfs fuel s k).1 = 0 ∧
      countCloses (startLoop env wfs fuel s k).1 = 0 ∧
      countWaits (startLoop env wfs fuel s k).1 = 0 := by
  intro fuel
  induction fuel with
  | zero =>
    intro s k
    simp only [startLoop]
    split
    · exact ⟨rfl, rfl, rfl⟩
    · exact ⟨rfl, rfl, rfl⟩
  | succ n ih =>
    intro s k
    simp only [startLoop]
    split
    · cases hf : env.fetch k with
      | error e => simp [countOpens, countCloses, countWaits]
      | ok s2 =>
        have hi := ih s2 (k + 1)
        simp [countOpens, countCloses, countWaits, hi.1, hi.2.1, hi.2.2]
    · exact ⟨rfl, rfl, rfl⟩

theorem streamLoop_no_session (env : Env) (nc : Bool) :
    ∀ (fuel : Nat) (s : String) (k w : Nat),
      countOpens (streamLoop env nc fuel s k w).1 = 0 ∧
      countCloses (streamLoop env nc fuel s k w).1 = 0 := by
  intro fuel
  induction fuel with
  | zero =>
    intro s k w
    simp only [streamLoop]
    split
    · exact ⟨rfl, rfl⟩
    · exact ⟨rfl, rfl⟩
  | succ n ih =>
    intro s k w
    simp only [streamLoop]
    split
    · have hw := processWave_counts nc (env.waves w)
      cases hf : env.fetch k with
      | error e =>
        simp [countOpens, countCloses, countOpens_append, countCloses_append,
          hw.1, hw.2.1]
      | ok s2 =>
        have hi := ih s2 (k + 1) (w + 1)
        simp [countOpens, countCloses, countOpens_append, countCloses_append,
          hw.1, hw.2.1, hi.1, hi.2]
    · exact ⟨rfl, rfl⟩

theorem startLoop_exn_source (env : Env) (wfs : Bool) :
    ∀ (fuel : Nat) (s : String) (k : Nat) (e : PyErr),
      (startLoop env wfs fuel s k).2 = LoopRes.exn e →
      ∃ j, env.fetch j = Except.error e := by
  intro fuel
  induction fuel with
  | zero =>
    intro s k e h
    simp only [startLoop] at h
    split at h <;> simp at h
  | succ n ih =>
    intro s k e h
    simp only [startLoop] at h
    split at h
    · cases hf : env.fetch k with
      | error e2 =>
        rw [hf] at h
        simp at h
        exact ⟨k, by rw [hf, h]⟩
      | ok s2 =>
        rw [hf] at h
        simp at h
        exact ih s2 (k + 1) e h
    · simp at h

theorem streamLoop_exn_source (env : Env) (nc : Bool) :
    ∀ (fuel : Nat) (s : String) (k w : Nat) (e : PyErr),
      (streamLoop env nc fuel s k w).2 = LoopRes.exn e →
      ∃ j, env.fetch j = Except.error e := by
  intro fuel
  induction fuel with
  | zero =>
    intro s k w e h
    simp only [streamLoop] at h
    split at h <;> simp at h
  | succ n ih =>
    intro s k w e h
    simp only [streamLoop] at h
    split at h
    · cases hf : env.fetch k with
      | error e2 =>
        rw [hf] at h
        simp at h
        exact ⟨k, by rw [hf, h]⟩
      | ok s2 =>
        rw [hf] at h
        simp at h
        exact ih s2 (k + 1) (w + 1) e h
    · simp at h

theorem startLoop_waves_irrelevant (env : Env) (w' : Nat → List Msg) (wfs : Bool) :
    ∀ (fuel : Nat) (s : String) (k : Nat),
      startLoop { env with waves := w' } wfs fuel s k =
        startLoop env wfs fuel s k := by
  intro fuel
  induction fuel with
  | zero => intro s k; rfl
  | succ n ih =>
    intro s k
    simp only [startLoop]
    split
    · cases hf : env.fetch k with
      | error e => simp [hf]
      | ok s2 => simp [hf, ih s2 (k + 1)]
    · rfl

theorem streamLoop_waves_result (env : Env) (w' : Nat → List Msg) (nc : Bool) :
    ∀ (fuel : Nat) (s : String) (k w : Nat),
      (streamLoop { env with waves := w' } nc fuel s k w).2 =
        (streamLoop env nc fuel s k w).2 := by
  intro fuel
  induction fuel with
  | zero => intro s k w; rfl
  | succ n ih =>
    intro s k w
    simp only [streamLoop]
    split
    · cases hf : env.fetch k with
      | error e => simp [hf]
      | ok s2 => simp [hf, ih s2 (k + 1) (w + 1)]
    · rfl

theorem startLoop_tokenReq_irrelevant (env : Env) (t' : Except PyErr (Option String))
    (wfs : Bool) :
    ∀ (fuel : Nat) (s : String) (k : Nat),
      startLoop { env with tokenReq := t' } wfs fuel s k =
        startLoop env wfs fuel s k := by
  intro fuel
  induction fuel with
  | zero => intro s k; rfl
  | succ n ih =>
    intro s k
    simp only [startLoop]
    split
    · cases hf : env.fetch k with
      | error e => simp [hf]
      | ok s2 => simp [hf, ih s2 (k + 1)]
    · rfl

theorem startLoop_spin_aux (env : Env)
    (hf : ∀ i, env.fetch i = Except.ok "init") :
    ∀ (fuel k : Nat), (startLoop env true fuel "init" k).2 = LoopRes.spin := by
  intro fuel
  induction fuel with
  | zero => intro k; simp [startLoop]
  | succ n ih => intro k; simp [startLoop, hf k, ih (k + 1)]

theorem startLoop_stop (env : Env) (wfs : Bool) (fuel : Nat) (s : String)
    (k : Nat) (h : ¬(wfs = true ∧ s = "init")) :
    startLoop env wfs fuel s k = ([], LoopRes.ok (s, k)) := by
  simp [startLoop.eq_def, h]

theorem startLoop_step_ok (env : Env) (fuel k : Nat) (s2 : String)
    (hf : env.fetch k = Except.ok s2) :
    startLoop env true (fuel + 1) "init" k =
      (Event.sleepSecs 3 :: Event.fetchJob ::
        (startLoop env true fuel s2 (k + 1)).1,
       (startLoop env true fuel s2 (k + 1)).2) := by
  conv_lhs => rw [startLoop.eq_def]
  simp [hf]

theorem startLoop_step_exn (env : Env) (fuel k : Nat) (e : PyErr)
    (hf : env.fetch k = Except.error e) :
    startLoop env true (fuel + 1) "init" k =
      ([Event.sleepSecs 3, Event.fetchJob], LoopRes.exn e) := by
  simp [startLoop.eq_def, hf]

theorem streamLoop_stop (env : Env) (nc : Bool) (fuel : Nat) (s : String)
    (k w : Nat) (h : ¬ s = "started") :
    streamLoop env nc fuel s k w = ([], LoopRes.ok w) := by
  simp [streamLoop.eq_def, h]

theorem streamLoop_step_ok (env : Env) (nc : Bool) (fuel : Nat) (s2 : String)
    (k w : Nat) (hf : env.fetch k = Except.ok s2) :
    streamLoop env nc (fuel + 1) "started" k w =
      (Event.waitWindow 3 :: processWave nc (env.waves w) ++ Event.fetchJob ::
        (streamLoop env nc fuel s2 (k + 1) (w + 1)).1,
       (streamLoop env nc fuel s2 (k + 1) (w + 1)).2) := by
  conv_lhs => rw [streamLoop.eq_def]
  simp [hf]

theorem streamLoop_step_exn (env : Env) (nc : Bool) (fuel : Nat) (k w : Nat)
    (e : PyErr) (hf : env.fetch k = Except.error e) :
    streamLoop env nc (fuel + 1) "started" k w =
      (Event.waitWindow 3 :: processWave nc (env.waves w) ++ [Event.fetchJob],
       LoopRes.exn e) := by
  simp [streamLoop.eq_def, hf]

theorem startLoop_progress (env : Env) :
    ∀ (m : Nat) (g : Nat → String) (fuel k : Nat),
      m + 1 ≤ fuel →
      (∀ i, i < m + 1 → env.fetch (k + i) = Except.ok (g i)) →
      (∀ i, i < m → g i = "init") →
      g m ≠ "init" →
      startLoop env true fuel "init" k =
        (startEvents (m + 1), LoopRes.ok (g m, k + (m + 1))) := by
  intro m
  induction m with
  | zero =>
    intro g fuel k hfuel hfetch _ hlast
    cases fuel with
    | zero => omega
    | succ f =>
      have h0 : env.fetch k = Except.ok (g 0) := by
        have := hfetch 0 (by omega)
        simpa using this
      rw [startLoop_step_ok env f k (g 0) h0,
        startLoop_stop env true f (g 0) (k + 1) (by simp [hlast])]
      simp [startEvents]
  | succ m ih =>
    intro g fuel k hfuel hfetch hmid hlast
    cases fuel with
    | zero => omega
    | succ f =>
      have h0 : env.fetch k = Except.ok "init" := by
        have := hfetch 0 (by omega)
        simpa [hmid 0 (by omega)] using this
      have hrec : startLoop env true f "init" (k + 1) =
          (startEvents (m + 1), LoopRes.ok (g (m + 1), k + 1 + (m + 1))) :=
        ih (fun i => g (i + 1)) f (k + 1) (by omega)
          (fun i hi => by
            have := hfetch (i + 1) (by omega)
            rw [show k + 1 + i = k + (i + 1) by omega]
            exact this)
          (fun i hi => hmid (i + 1) (by omega))
          hlast
      rw [startLoop_step_ok env f k "init" h0, hrec,
        show k + 1 + (m + 1) = k + (m + 1 + 1) by omega]
      simp [startEvents]

theorem streamLoop_progress (env : Env) (nc : Bool) :
    ∀ (m : Nat) (g : Nat → String) (fuel k w : Nat),
      m ≤ fuel →
      (∀ i, i < m → g i = "started") →
      g m ≠ "started" →
      (∀ i, i < m → env.fetch (k + i) = Except.ok (g (i + 1))) →
      streamLoop env nc fuel (g 0) k w =
        (streamEvents env nc m w, LoopRes.ok (w + m)) := by
  intro m
  induction m with
  | zero =>
    intro g fuel k w _ _ hlast _
    rw [streamLoop_stop env nc fuel (g 0) k w hlast]
    simp [streamEvents]
  | succ m ih =>
    intro g fuel k w hfuel hmid hlast hfetch
    cases fuel with
    | zero => omega
    | succ f =>
      have h0 : g 0 = "started" := hmid 0 (by omega)
      have hf0 : env.fetch k = Except.ok (g 1) := by
        have := hfetch 0 (by omega)
        simpa using this
      have hrec : streamLoop env nc f (g 1) (k + 1) (w + 1) =
          (streamEvents env nc m (w + 1), LoopRes.ok (w + 1 + m)) :=
        ih (fun i => g (i + 1)) f (k + 1) (w + 1) (by omega)
          (fun i hi => hmid (i + 1) (by omega))
          hlast
          (fun i hi => by
            have := hfetch (i + 1) (by omega)
            rw [show k + 1 + i = k + (i + 1) by omega]
            exact this)
      rw [h0, streamLoop_step_ok env nc f (g 1) k w hf0, hrec,
        show w + 1 + m = w + (m + 1) by omega]
      simp [streamEvents]

theorem streamLoop_tokenReq_irrelevant (env : Env) (t' : Except PyErr (Option String))
    (nc : Bool) :
    ∀ (fuel : Nat) (s : String) (k w : Nat),
      streamLoop { env with tokenReq := t' } nc fuel s k w =
        streamLoop env nc fuel s k w := by
  intro fuel
  induction fuel with
  | zero => intro s k w; rfl
  | succ n ih =>
    intro s k w
    simp only [streamLoop]
    split
    · cases hf : env.fetch k with
      | error e => simp [hf]
      | ok s2 => simp [hf, ih s2 (k + 1) (w + 1)]
    · rfl

theorem countOpens_startLoop (env : Env) (wfs : Bool) (fuel : Nat) (s : String)
    (k : Nat) : countOpens (startLoop env wfs fuel s k).1 = 0 :=
  (startLoop_no_session env wfs fuel s k).1

theorem countCloses_startLoop (env : Env) (wfs : Bool) (fuel : Nat) (s : String)
    (k : Nat) : countCloses (startLoop env wfs fuel s k).1 = 0 :=
  (startLoop_no_session env wfs fuel s k).2.1

theorem countWaits_startLoop (env : Env) (wfs : Bool) (fuel : Nat) (s : String)
    (k : Nat) : countWaits (startLoop env wfs fuel s k).1 = 0 :=
  (startLoop_no_session env wfs fuel s k).2.2

theorem countOpens_streamLoop (env : Env) (nc : Bool) (fuel : Nat) (s : String)
    (k w : Nat) : countOpens (streamLoop env nc fuel s k w).1 = 0 :=
  (streamLoop_no_session env nc fuel s k w).1

theorem countCloses_streamLoop (env : Env) (nc : Bool) (fuel : Nat) (s : String)
    (k w : Nat) : countCloses (streamLoop env nc fuel s k w).1 = 0 :=
  (streamLoop_no_session env nc fuel s k w).2

theorem countOpens_processWave (nc : Bool) (msgs : List Msg) :
    countOpens (processWave nc msgs) = 0 :=
  (processWave_counts nc msgs).1

theorem countCloses_processWave (nc : Bool) (msgs : List Msg) :
    countCloses (processWave nc msgs) = 0 :=
  (processWave_counts nc msgs).2.1

theorem countWaits_processWave (nc : Bool) (msgs : List Msg) :
    countWaits (processWave nc msgs) = 0 :=
  (processWave_counts nc msgs).2.2

theorem countOpens_streamEvents (env : Env) (nc : Bool) (m w : Nat) :
    countOpens (streamEvents env nc m w) = 0 :=
  (streamEvents_counts env nc m w).1

theorem countCloses_streamEvents (env : Env) (nc : Bool) (m w : Nat) :
    countCloses (streamEvents env nc m w) = 0 :=
  (streamEvents_counts env nc m w).2.1

theorem countWaits_streamEvents (env : Env) (nc : Bool) (m w : Nat) :
    countWaits (streamEvents env nc m w) = m :=
  (streamEvents_counts env nc m w).2.2

/-! ## Claim theorems about the controller -/

/-- C7: for every job whose status is `init` when `get_logs_async` is
called with `wait_for_start = false`, the run invokes
`exception_handler` with the refusal error "The job is not started."
and performs nothing else: no websocket probe, no session, no token
fetch, no subscription, and it returns `None`. The equality of the
full event list shows the absence of any channel activity. -/
theorem refusal_when_init_and_no_wait :
    ∀ (env : Env) (jid : String) (nc : Bool) (fuel : Nat),
      env.fetch 0 = Except.ok "init" →
      get_logs_async env jid false nc fuel =
        ([Event.fetchJob,
          Event.errorCb (PyErr.apiClientException "The job is not started.")],
         RunRes.ret none) := by
  intro env jid nc fuel h0
  have hstop := startLoop_stop env false fuel "init" 1 (by simp)
  simp [get_logs_async, h0, hstop]

/-- Witness for C7 at a concrete environment. -/
theorem refusal_when_init_and_no_wait_witness :
    get_logs_async
      ⟨fun _ => Except.ok "init", Except.ok 200, Except.ok none, fun _ => []⟩
      "job-1" false false 5 =
      ([Event.fetchJob,
        Event.errorCb (PyErr.apiClientException "The job is not started.")],
       RunRes.ret none) :=
  refusal_when_init_and_no_wait
    ⟨fun _ => Except.ok "init", Except.ok 200, Except.ok none, fun _ => []⟩
    "job-1" false 5 rfl

/-- C10: `get_logs_async` returns `None` on every execution path that
returns at all (refusal, websocket-server-unavailable, and the full
streaming/drain path); log data and failures reach the caller only
through the two callbacks (events), never through the return value. -/
theorem get_logs_async_returns_none :
    ∀ (env : Env) (jid : String) (wfs nc : Bool) (fuel : Nat)
      (evs : List Event) (v : Option PyData),
      get_logs_async env jid wfs nc fuel = (evs, RunRes.ret v) → v = none := by
  intro env jid wfs nc fuel evs v h
  simp only [get_logs_async] at h
  repeat' split at h
  all_goals simp_all

/-- Witness for C10: the refusal path returns `None`. -/
theorem get_logs_async_returns_none_witness : (none : Option PyData) = none :=
  get_logs_async_returns_none
    ⟨fun _ => Except.ok "init", Except.ok 200, Except.ok none, fun _ => []⟩
    "job-1" false false 5
    [Event.fetchJob,
     Event.errorCb (PyErr.apiClientException "The job is not started.")]
    none rfl

/-- C8: with `wait_for_start = true` and an initial `init` status, the
controller sleeps a fixed 3-second interval and re-fetches the job
once per interval — the pre-handshake events are exactly
`fetchJob` followed by `m + 1` repetitions of `sleep 3; fetchJob`,
with no channel activity — until the status leaves `init`, and only
then proceeds to the websocket probe (the next event is `wsProbe`);
and if every fetch returns `init`, the loop never terminates (for
every fuel bound the run is still spinning). -/
theorem wait_for_start_polling :
    (∀ (env : Env) (jid : String) (nc : Bool) (fuel m : Nat) (g : Nat → String),
      m + 1 ≤ fuel →
      env.fetch 0 = Except.ok "init" →
      (∀ i, i < m + 1 → env.fetch (1 + i) = Except.ok (g i)) →
      (∀ i, i < m → g i = "init") →
      g m ≠ "init" →
      ∃ tail res,
        get_logs_async env jid true nc fuel =
          (Event.fetchJob :: (startEvents (m + 1) ++ Event.wsProbe :: tail),
           res)) ∧
    (∀ (env : Env) (jid : String) (nc : Bool) (fuel : Nat),
      (∀ i, env.fetch i = Except.ok "init") →
      (get_logs_async env jid true nc fuel).2 = RunRes.spin ∧
      (startLoop env true fuel "init" 1).2 = LoopRes.spin) := by
  constructor
  · intro env jid nc fuel m g hfuel h0 hfetch hmid hlast
    have hsl := startLoop_progress env m g fuel 1 hfuel hfetch hmid hlast
    simp only [get_logs_async, h0, hsl]
    rw [if_neg hlast]
    split
    next e heq =>
      exact ⟨[], RunRes.exn e, by simp⟩
    next code heq =>
      by_cases hc : code = 200
      · subst hc
        rw [if_neg (fun hne => hne rfl)]
        split
        next heq2 =>
          exact ⟨Event.sessionOpen :: Event.tokenFetch ::
            Event.emitSub jid 0 true (get_websocket_token env.tokenReq) ::
            (streamLoop env nc fuel (g m) (1 + (m + 1)) 0).1,
            RunRes.spin, by simp⟩
        next e heq2 =>
          exact ⟨Event.sessionOpen :: Event.tokenFetch ::
            Event.emitSub jid 0 true (get_websocket_token env.tokenReq) ::
            ((streamLoop env nc fuel (g m) (1 + (m + 1)) 0).1 ++
              [Event.sessionClose]), RunRes.exn e, by simp⟩
        next w heq2 =>
          exact ⟨Event.sessionOpen :: Event.tokenFetch ::
            Event.emitSub jid 0 true (get_websocket_token env.tokenReq) ::
            ((streamLoop env nc fuel (g m) (1 + (m + 1)) 0).1 ++
              Event.waitWindow 3 ::
              (processWave nc (env.waves w) ++ [Event.sessionClose])),
            RunRes.ret none, by simp⟩
      · rw [if_pos hc]
        exact ⟨[Event.errorCb
          (PyErr.apiClientException "Websocket server is unavailable.")],
          RunRes.ret none, by simp⟩
  · intro env jid nc fuel hf
    have hspin := startLoop_spin_aux env hf fuel 1
    constructor
    · rcases hr : startLoop env true fuel "init" 1 with ⟨evs1, r1⟩
      have hr1 : r1 = LoopRes.spin := by rw [hr] at hspin; exact hspin
      subst hr1
      simp [get_logs_async, hf 0, hr]
    · exact hspin

/-- Witness for C8: two `init` polls then `started`; the controller
emits exactly one sleep-and-fetch pair per interval and then probes. -/
theorem wait_for_start_polling_witness :
    ∃ tail res,
      get_logs_async
        ⟨fun k => if k ≤ 1 then Except.ok "init" else Except.ok "started",
         Except.ok 200, Except.ok none, fun _ => []⟩
        "job-1" true false 5 =
        (Event.fetchJob :: (startEvents 2 ++ Event.wsProbe :: tail), res) :=
  wait_for_start_polling.1
    ⟨fun k => if k ≤ 1 then Except.ok "init" else Except.ok "started",
     Except.ok 200, Except.ok none, fun _ => []⟩
    "job-1" false 5 1
    (fun i => if i = 0 then "init" else "started")
    (by omega) rfl
    (by intro i hi; interval_cases i <;> rfl)
    (by intro i hi; interval_cases i <;> rfl)
    (by simp)

/-- C5: whenever the polled status eventually leaves `started` (after
`m` streaming iterations) and the handshake succeeded, the streaming
loop terminates, exactly one additional drain wait follows the
terminal-status observation (total waits `m + 1`), and the session is
opened and released exactly once; moreover on *every* completed run
(normal or exceptional, including runs whose message handlers were
invoked and runs that exited early on an error path) the number of
session releases equals the number of session acquisitions, which is
at most one — no double release and no leaked session. -/
theorem session_lifecycle :
    (∀ (env : Env) (jid : String) (wfs nc : Bool) (fuel m : Nat) (g : Nat → String),
      m ≤ fuel →
      env.fetch 0 = Except.ok (g 0) →
      g 0 ≠ "init" →
      (∀ i, i < m → g i = "started") →
      g m ≠ "started" →
      (∀ i, i < m → env.fetch (1 + i) = Except.ok (g (i + 1))) →
      env.wsCheck = Except.ok 200 →
      get_logs_async env jid wfs nc fuel =
        (Event.fetchJob :: Event.wsProbe :: Event.sessionOpen :: Event.tokenFetch ::
          Event.emitSub jid 0 true (get_websocket_token env.tokenReq) ::
          (streamEvents env nc m 0 ++ Event.waitWindow 3 ::
            (processWave nc (env.waves m) ++ [Event.sessionClose])),
         RunRes.ret none) ∧
      countWaits (get_logs_async env jid wfs nc fuel).1 = m + 1 ∧
      countOpens (get_logs_async env jid wfs nc fuel).1 = 1 ∧
      countCloses (get_logs_async env jid wfs nc fuel).1 = 1) ∧
    (∀ (env : Env) (jid : String) (wfs nc : Bool) (fuel : Nat) (evs : List Event)
      (res : RunRes),
      get_logs_async env jid wfs nc fuel = (evs, res) →
      res ≠ RunRes.spin →
      countOpens evs = countCloses evs ∧ countOpens evs ≤ 1) := by
  constructor
  · intro env jid wfs nc fuel m g hfuel h0 hg0 hmid hlast hfetch hws
    have hstart := startLoop_stop env wfs fuel (g 0) 1 (by simp [hg0])
    have hstream := streamLoop_progress env nc m g fuel 1 0 hfuel hmid hlast hfetch
    have hrun : get_logs_async env jid wfs nc fuel =
        (Event.fetchJob :: Event.wsProbe :: Event.sessionOpen :: Event.tokenFetch ::
          Event.emitSub jid 0 true (get_websocket_token env.tokenReq) ::
          (streamEvents env nc m 0 ++ Event.waitWindow 3 ::
            (processWave nc (env.waves m) ++ [Event.sessionClose])),
         RunRes.ret none) := by
      simp only [get_logs_async, h0, hstart]
      rw [if_neg hg0, hws]
      simp only [hstream]
      simp
    refine ⟨hrun, ?_, ?_, ?_⟩ <;>
      rw [hrun] <;>
      simp [countWaits, countOpens, countCloses, countWaits_append,
        countOpens_append, countCloses_append, countWaits_streamEvents,
        countOpens_streamEvents, countCloses_streamEvents,
        countWaits_processWave, countOpens_processWave, countCloses_processWave]
  · intro env jid wfs nc fuel evs res hrun hne
    simp only [get_logs_async] at hrun
    repeat' split at hrun
    all_goals
      injection hrun with h1 h2
    all_goals subst h1
    all_goals subst h2
    all_goals
      first
      | exact absurd rfl hne
      | (refine ⟨?_, ?_⟩ <;>
          simp [countOpens, countCloses, countOpens_append, countCloses_append,
            countOpens_startLoop, countCloses_startLoop, countOpens_streamLoop,
            countCloses_streamLoop, countOpens_processWave,
            countCloses_processWave])

/-- Witness for C5: one `started` poll then `done`; the run performs
two waits (one streaming, one drain) and opens and closes exactly one
session. -/
theorem session_lifecycle_witness :
    countWaits (get_logs_async
      ⟨fun k => if k = 0 then Except.ok "started" else Except.ok "done",
       Except.ok 200, Except.ok none, fun _ => []⟩
      "job-1" false false 5).1 = 2 ∧
    countOpens (get_logs_async
      ⟨fun k => if k = 0 then Except.ok "started" else Except.ok "done",
       Except.ok 200, Except.ok none, fun _ => []⟩
      "job-1" false false 5).1 = 1 ∧
    countCloses (get_logs_async
      ⟨fun k => if k = 0 then Except.ok "started" else Except.ok "done",
       Except.ok 200, Except.ok none, fun _ => []⟩
      "job-1" false false 5).1 = 1 :=
  (session_lifecycle.1
    ⟨fun k => if k = 0 then Except.ok "started" else Except.ok "done",
     Except.ok 200, Except.ok none, fun _ => []⟩
    "job-1" false false 5 1
    (fun i => if i = 0 then "started" else "done")
    (by omega) rfl (by simp)
    (by intro i hi; interval_cases i <;> rfl)
    (by simp)
    (by intro i hi; interval_cases i <;> rfl)
    rfl).2

theorem startLoop_fetch_congr (env1 env2 : Env)
    (hf : env1.fetch = env2.fetch) (wfs : Bool) :
    ∀ (fuel : Nat) (s : String) (k : Nat),
      startLoop env1 wfs fuel s k = startLoop env2 wfs fuel s k := by
  intro fuel
  induction fuel with
  | zero => intro s k; rfl
  | succ n ih =>
    intro s k
    simp only [startLoop, hf]
    split
    · cases hfk : env2.fetch k with
      | error e => simp [hfk]
      | ok s2 => simp [hfk, ih s2 (k + 1)]
    · rfl

theorem streamLoop_fetch_congr (env1 env2 : Env)
    (hf : env1.fetch = env2.fetch) (nc : Bool) :
    ∀ (fuel : Nat) (s : String) (k w : Nat),
      (streamLoop env1 nc fuel s k w).2 = (streamLoop env2 nc fuel s k w).2 := by
  intro fuel
  induction fuel with
  | zero => intro s k w; rfl
  | succ n ih =>
    intro s k w
    simp only [streamLoop, hf]
    split
    · cases hfk : env2.fetch k with
      | error e => simp [hfk]
      | ok s2 => simp [hfk, ih s2 (k + 1) (w + 1)]
    · rfl

/-- The outcome of `get_logs_async` depends only on the status fetches
and the websocket probe, never on the inbound messages or on the
token request. -/
theorem run_result_congr (env1 env2 : Env)
    (hf : env1.fetch = env2.fetch) (hw : env1.wsCheck = env2.wsCheck)
    (jid : String) (wfs nc : Bool) (fuel : Nat) :
    (get_logs_async env1 jid wfs nc fuel).2 =
      (get_logs_async env2 jid wfs nc fuel).2 := by
  simp only [get_logs_async, hf, hw, startLoop_fetch_congr env1 env2 hf]
  cases h0 : env2.fetch 0 with
  | error e => simp [h0]
  | ok s0 =>
    simp only [h0]
    rcases hr1 : startLoop env2 wfs fuel s0 1 with ⟨evs1, r1⟩
    simp only [hr1]
    cases r1 with
    | spin => rfl
    | exn e => rfl
    | ok sk =>
      rcases sk with ⟨s, k⟩
      by_cases hs : s = "init"
      · simp [hs]
      · simp only [if_neg hs]
        cases hws2 : env2.wsCheck with
        | error e => simp [hws2]
        | ok code =>
          simp only [hws2]
          by_cases hc : code = 200
          · subst hc
            simp only [if_neg (show ¬((200 : Nat) ≠ 200) from fun hne => hne rfl)]
            have hsl2 := streamLoop_fetch_congr env1 env2 hf nc fuel s k 0
            rcases hA : streamLoop env1 nc fuel s k 0 with ⟨evsA, rA⟩
            rcases hB : streamLoop env2 nc fuel s k 0 with ⟨evsB, rB⟩
            rw [hA, hB] at hsl2
            simp only at hsl2
            subst hsl2
            simp only [hA, hB]
            cases rA <;> rfl
          · simp only [if_pos hc]

/-- C4: error-propagation asymmetry. (1) The run's outcome is entirely
independent of the inbound messages: whatever the per-message pipeline
does (decode failures, sanitizer failures, server-pushed `error`
fields — all of which `callback` turns into `errorCb` events), the
result of the call is unchanged, so a message failure never terminates
the stream. (2) Every uncaught exception of a completed run originates
from a job-status fetch or from the websocket probe — never from the
message pipeline. (3) An exception raised by the status re-fetch
inside the streaming loop propagates as the loop's uncaught outcome,
and (4) likewise for the wait-for-start loop. -/
theorem streaming_error_asymmetry :
    (∀ (env : Env) (w' : Nat → List Msg) (jid : String) (wfs nc : Bool)
      (fuel : Nat),
      (get_logs_async { env with waves := w' } jid wfs nc fuel).2 =
        (get_logs_async env jid wfs nc fuel).2) ∧
    (∀ (env : Env) (jid : String) (wfs nc : Bool) (fuel : Nat) (e : PyErr),
      (get_logs_async env jid wfs nc fuel).2 = RunRes.exn e →
      (∃ j, env.fetch j = Except.error e) ∨ env.wsCheck = Except.error e) ∧
    (∀ (env : Env) (nc : Bool) (fuel k w : Nat) (e : PyErr),
      env.fetch k = Except.error e →
      (streamLoop env nc (fuel + 1) "started" k w).2 = LoopRes.exn e) ∧
    (∀ (env : Env) (fuel k : Nat) (e : PyErr),
      env.fetch k = Except.error e →
      (startLoop env true (fuel + 1) "init" k).2 = LoopRes.exn e) := by
  refine ⟨?_, ?_, ?_, ?_⟩
  · intro env w' jid wfs nc fuel
    exact run_result_congr { env with waves := w' } env rfl rfl jid wfs nc fuel
  · intro env jid wfs nc fuel e h
    simp only [get_logs_async] at h
    split at h
    next e0 heq0 =>
      simp only at h
      cases h
      exact Or.inl ⟨0, heq0⟩
    next s0 heq0 =>
      split at h
      next heq1 => simp at h
      next e1 heq1 =>
        simp only at h
        cases h
        exact Or.inl (startLoop_exn_source env wfs fuel s0 1 e heq1)
      next s k heq1 =>
        split at h
        next hs => simp at h
        next hs =>
          split at h
          next e1 heq2 =>
            simp only at h
            cases h
            exact Or.inr heq2
          next code heq2 =>
            split at h
            next hcode => simp at h
            next hcode =>
              split at h
              next heq3 => simp at h
              next e1 heq3 =>
                simp only at h
                cases h
                exact Or.inl (streamLoop_exn_source env nc fuel s k 0 e heq3)
              next w heq3 => simp at h
  · intro env nc fuel k w e hf
    rw [streamLoop_step_exn env nc fuel k w e hf]
  · intro env fuel k e hf
    rw [startLoop_step_exn env fuel k e hf]

/-- Witness for C4: a fetch failure on the first streaming-loop poll
propagates as the loop's uncaught exception. -/
theorem streaming_error_asymmetry_witness :
    (streamLoop
      ⟨fun _ => Except.error (PyErr.apiClientException "net down"),
       Except.ok 200, Except.ok none, fun _ => []⟩
      false 1 "started" 0 0).2 =
      LoopRes.exn (PyErr.apiClientException "net down") :=
  streaming_error_asymmetry.2.2.1
    ⟨fun _ => Except.error (PyErr.apiClientException "net down"),
     Except.ok 200, Except.ok none, fun _ => []⟩
    false 0 0 0 (PyErr.apiClientException "net down") rfl

/-- C6: if the websocket-token request fails, `_get_websocket_token`
returns the falsy placeholder `False` instead of raising; the result
of `get_logs_async` never depends on the token request's outcome (so a
token failure never aborts the operation); and when the job is past
`init` and the probe succeeds, the run still opens the session and
emits the subscription `{log_id: jobId, last_pos: 0, raw_mode: true}`
with the falsy `auth_token`. -/
theorem token_failure_degraded :
    (∀ e : PyErr, get_websocket_token (Except.error e) = TokenVal.pyFalse ∧
      tokenTruthy TokenVal.pyFalse = false) ∧
    (∀ (env : Env) (t' : Except PyErr (Option String)) (jid : String)
      (wfs nc : Bool) (fuel : Nat),
      (get_logs_async { env with tokenReq := t' } jid wfs nc fuel).2 =
        (get_logs_async env jid wfs nc fuel).2) ∧
    (∀ (env : Env) (jid : String) (nc : Bool) (fuel : Nat) (s0 : String)
      (e : PyErr),
      env.fetch 0 = Except.ok s0 → s0 ≠ "init" →
      env.wsCheck = Except.ok 200 → env.tokenReq = Except.error e →
      ∃ tail res,
        get_logs_async env jid false nc fuel =
          (Event.fetchJob :: Event.wsProbe :: Event.sessionOpen ::
            Event.tokenFetch :: Event.emitSub jid 0 true TokenVal.pyFalse ::
            tail, res)) := by
  refine ⟨fun e => ⟨rfl, rfl⟩, ?_, ?_⟩
  · intro env t' jid wfs nc fuel
    exact run_result_congr { env with tokenReq := t' } env rfl rfl jid wfs nc fuel
  · intro env jid nc fuel s0 e h0 hs0 hws htok
    have hstart := startLoop_stop env false fuel s0 1 (by simp)
    have htokv : get_websocket_token env.tokenReq = TokenVal.pyFalse := by
      rw [htok]; rfl
    simp only [get_logs_async, h0, hstart]
    rw [if_neg hs0]
    split
    next e1 heq =>
      rw [hws] at heq
      simp at heq
    next code heq =>
      rw [hws] at heq
      injection heq with hcode
      subst hcode
      rw [if_neg (fun hne => hne rfl)]
      split
      next heq2 =>
        exact ⟨(streamLoop env nc fuel s0 1 0).1, RunRes.spin,
          by simp [htokv]⟩
      next e1 heq2 =>
        exact ⟨(streamLoop env nc fuel s0 1 0).1 ++ [Event.sessionClose],
          RunRes.exn e1, by simp [htokv]⟩
      next w heq2 =>
        exact ⟨(streamLoop env nc fuel s0 1 0).1 ++ Event.waitWindow 3 ::
          (processWave nc (env.waves w) ++ [Event.sessionClose]),
          RunRes.ret none, by simp [htokv]⟩

/-- Witness for C6: a failing token request still yields a session and
a subscription carrying the falsy `auth_token`. -/
theorem token_failure_degraded_witness :
    ∃ tail res,
      get_logs_async
        ⟨fun _ => Except.ok "done", Except.ok 200,
         Except.error PyErr.keyError, fun _ => []⟩
        "job-1" false false 5 =
        (Event.fetchJob :: Event.wsProbe :: Event.sessionOpen ::
          Event.tokenFetch :: Event.emitSub "job-1" 0 true TokenVal.pyFalse ::
          tail, res) :=
  token_failure_degraded.2.2
    ⟨fun _ => Except.ok "done", Except.ok 200,
     Except.error PyErr.keyError, fun _ => []⟩
    "job-1" false 5 "done" PyErr.keyError rfl (by simp) rfl rfl

end Pyghost
